import Mathlib

/-!
# Verification of the tractor-stats-dashboard statistics core

Shallow embedding of `src/stats.py` (and the constants of `src/constants.py`)
of the tractor-stats-dashboard repository, together with proofs of the
specification's claims about it.

Modelling conventions:
* A missing cell (pandas `NaN`) is `Option.none`; a present string cell is
  `Option.some s`.
* pandas `DataFrame`s of game records are `List Row` (one `Row` per record,
  in table order).  The generic frame returned by the data loader is a
  column-keyed association list (`PDataFrame`), which is all the loader needs.
* Python `float` results of `mean` are modelled as `Rat`; no claim in scope
  depends on IEEE-754 rounding behaviour.
* `datetime.now()` is an explicit `now : Nat` argument (seconds); the
  external `pd.read_csv(URL)` call is an explicit oracle argument
  `fetch : Except String PDataFrame`.  Each `load_data` call additionally
  reports whether it attempted the external fetch.
* Fallible Python code (statements that can raise) is embedded in
  `Except String`.
-/

/-! ## Python string primitives used by `stats.py`

`get_level_change_value` calls `str.strip()` and `int(str)`.  We embed the
fragments of those CPython builtins it can reach: `strip` removes ASCII
whitespace from both ends, and `int` accepts surrounding whitespace, one
optional sign, and a nonempty run of decimal digits in which single
underscores may separate digits.  (Unicode digits/whitespace accepted by
CPython are outside the claims and not modelled.)
-/

/-- ASCII whitespace as recognised by Python's `str.strip()`. -/
def pyIsSpace (c : Char) : Bool :=
  c = ' ' || c = '\t' || c = '\n' || c = '\r' || c = '\x0b' || c = '\x0c'

/-- ASCII decimal digit test. -/
def isAsciiDigit (c : Char) : Bool :=
  '0' ≤ c && c ≤ '9'

/-- Numeric value of an ASCII digit character. -/
def digitVal (c : Char) : Nat :=
  c.toNat - '0'.toNat

/-- `str.lstrip()` on a character list. -/
def lstripList (l : List Char) : List Char :=
  l.dropWhile pyIsSpace

/-- `str.rstrip()` on a character list. -/
def rstripList (l : List Char) : List Char :=
  (l.reverse.dropWhile pyIsSpace).reverse

/-- `str.strip()` on a character list. -/
def pyStripList (l : List Char) : List Char :=
  rstripList (lstripList l)

/-- Continuation of Python's base-10 integer-literal scan after at least one
digit has been read: further digits, with single underscores allowed between
digits. -/
def pyDigitsCore : Nat → List Char → Option Nat
  | acc, [] => some acc
  | acc, c :: rest =>
    if c = '_' then
      match rest with
      | [] => none
      | d :: rest2 =>
        if isAsciiDigit d then pyDigitsCore (acc * 10 + digitVal d) rest2 else none
    else if isAsciiDigit c then pyDigitsCore (acc * 10 + digitVal c) rest
    else none

/-- Python's `digitpart` grammar: `digit (["_"] digit)*`. -/
def pyDigits? : List Char → Option Nat
  | [] => none
  | c :: rest => if isAsciiDigit c then pyDigitsCore (digitVal c) rest else none

/-- Python's `int(str)` (base 10): strip surrounding whitespace, accept one
optional sign, then a `digitpart`.  `none` models a raised `ValueError`. -/
def pyIntList? (l : List Char) : Option Int :=
  let r := pyStripList l
  if r.head? = some '+' then (pyDigits? r.tail).map (fun n => (n : Int))
  else if r.head? = some '-' then (pyDigits? r.tail).map (fun n => -(n : Int))
  else (pyDigits? r).map (fun n => (n : Int))

/-! ## Result Encoder — `get_level_change_value` (stats.py lines 14–34) -/

/-- Branch structure of `get_level_change_value` after `str(result).strip()`:
`result == 'Draw'`, `result.startswith('A+')` with `int(result[2:])`,
`result.startswith('D+')` with `-int(result[2:])`, else `0`; the `try/except`
around `int` degrades a parse failure to `0`. -/
def glcvCore (l : List Char) : Int :=
  if l = "Draw".data then 0
  else if l.take 2 = ['A', '+'] then (pyIntList? (l.drop 2)).getD 0
  else if l.take 2 = ['D', '+'] then -((pyIntList? (l.drop 2)).getD 0)
  else 0

/-- `get_level_change_value(result)`.  `none` is a missing value
(`pd.isna(result)` true); a present value reaches `str(result).strip()` and
the branch chain.  (Non-string non-null Python values pass through `str()`
first; the claims quantify over null-or-string inputs.) -/
def get_level_change_value (result : Option String) : Int :=
  match result with
  | none => 0
  | some s => glcvCore (pyStripList s.data)

example : get_level_change_value none = 0 := by decide
example : get_level_change_value (some "Draw") = 0 := by decide
example : get_level_change_value (some " Draw ") = 0 := by decide
example : get_level_change_value (some "A+2") = 2 := by decide
example : get_level_change_value (some "D+3") = -3 := by decide
example : get_level_change_value (some "A+") = 0 := by decide
example : get_level_change_value (some "A+x") = 0 := by decide
example : get_level_change_value (some "hello") = 0 := by decide
example : get_level_change_value (some "A+-3") = -3 := by decide
example : get_level_change_value (some "A+ 3") = 3 := by decide
example : get_level_change_value (some "A+1_0") = 10 := by decide

/-! ## Data Loader / Cache — `load_data`, `clear_cache` (stats.py lines 7–65)

The module-level `_cache` dict has keys `data`, `timestamp` and
`cache_duration` (a constant `timedelta(minutes=5)` = 300 s).  `load_data`
returns the served frame, the cache state after the call, and whether the
external fetch was attempted (`pd.read_csv(URL)` reached).
-/

/-- A generic pandas frame as the loader sees it: column name ↦ cells.
The loader never inspects a fetched frame, only constructs the one-column
error frame. -/
abbrev PDataFrame := List (String × List String)

/-- `pd.DataFrame({"Error": [str(e)]})` (stats.py line 60). -/
def errorFrame (e : String) : PDataFrame := [("Error", [e])]

/-- The `_cache` dict (stats.py lines 8–12). -/
structure Cache where
  data : Option PDataFrame
  timestamp : Option Nat
  cache_duration : Nat
deriving Repr, DecidableEq

/-- Initial module state: `data = None`, `timestamp = None`,
`cache_duration = timedelta(minutes=5)`. -/
def initCache : Cache := ⟨none, none, 300⟩

/-- The fetch path of `load_data` (stats.py lines 50–60): try
`pd.read_csv(URL)`; on success store the frame and the current time and
return it; on failure return stale cached data if any, else the error
frame.  The cache is left untouched on failure. -/
def fetch_branch (c : Cache) (now : Nat) (fetch : Except String PDataFrame) :
    PDataFrame × Cache × Bool :=
  match fetch with
  | Except.ok df => (df, { c with data := some df, timestamp := some now }, true)
  | Except.error e =>
    match c.data with
    | some d => (d, c, true)
    | none => (errorFrame e, c, true)

/-- `load_data(force_refresh)` (stats.py lines 36–60).  The freshness test is
`datetime.now() - _cache['timestamp'] < _cache['cache_duration']`, guarded by
`not force_refresh and _cache['data'] is not None and _cache['timestamp'] is
not None`.  Result: (returned frame, cache after the call, fetch attempted).
Both `datetime.now()` readings inside one call are modelled by the single
`now` argument. -/
def load_data (force_refresh : Bool) (c : Cache) (now : Nat)
    (fetch : Except String PDataFrame) : PDataFrame × Cache × Bool :=
  match c.data, c.timestamp with
  | some d, some ts =>
    if force_refresh = false ∧ now - ts < c.cache_duration then (d, c, false)
    else fetch_branch c now fetch
  | some _, none => fetch_branch c now fetch
  | none, _ => fetch_branch c now fetch

/-- `clear_cache()` (stats.py lines 62–65). -/
def clear_cache (c : Cache) : Cache :=
  { c with data := none, timestamp := none }

/-! ## Game records — the table consumed by the aggregators

Columns per `constants.py`: `ATTACKING_PLAYER_COLS = ['A1'..'A5']`,
`DEFENDING_PLAYER_COLS = ['D1'..'D4']`, `ALL_PLAYER_COLS` their
concatenation, `DEALER_COL = 'D1'`, `MIN_SAMPLE_SIZE = 5`.  Player cells may
be missing; `Points` is the numeric points column (spec §3: a numeric value)
and `Result` the outcome string, possibly missing.
-/

/-- One game record (one row of the fetched table). -/
structure Row where
  A1 : Option String
  A2 : Option String
  A3 : Option String
  A4 : Option String
  A5 : Option String
  D1 : Option String
  D2 : Option String
  D3 : Option String
  D4 : Option String
  points : Rat
  result : Option String
deriving Repr, DecidableEq

/-- `row[ATTACKING_PLAYER_COLS].values`. -/
def attackingCells (r : Row) : List (Option String) :=
  [r.A1, r.A2, r.A3, r.A4, r.A5]

/-- `row[DEFENDING_PLAYER_COLS].values`. -/
def defendingCells (r : Row) : List (Option String) :=
  [r.D1, r.D2, r.D3, r.D4]

/-- `row[defending_other_columns].values` where
`defending_other_columns = DEFENDING_PLAYER_COLS[1:]` (stats.py line 68). -/
def defendingOtherCells (r : Row) : List (Option String) :=
  [r.D2, r.D3, r.D4]

/-- `row[ALL_PLAYER_COLS].values`. -/
def allCells (r : Row) : List (Option String) :=
  attackingCells r ++ defendingCells r

/-- `MIN_SAMPLE_SIZE` (constants.py line 10). -/
def MIN_SAMPLE_SIZE : Nat := 5

/-! ## Player Stat Aggregator — `calculate_player_stats` (stats.py 67–118) -/

/-- The dict returned by `calculate_player_stats`, with one field per key in
source order (stats.py lines 107–118). -/
structure PlayerStats where
  avg_attacking : Rat
  attacking_sample_size : Nat
  avg_defending : Rat
  defending_sample_size : Nat
  avg_defending_other : Rat
  defending_other_sample_size : Nat
  avg_defending_d1 : Rat
  defending_d1_sample_size : Nat
  avg_level_change : Rat
  level_change_sample_size : Nat
deriving Repr, DecidableEq

/-- `df[df[ALL_PLAYER_COLS].apply(lambda row: player_name in row.values,
axis=1)]` (stats.py line 70). -/
def df_player (p : String) (df : List Row) : List Row :=
  df.filter (fun r => (allCells r).contains (some p))

/-- `df_player[...ATTACKING_PLAYER_COLS...]` (stats.py line 73). -/
def df_attacking_games (p : String) (df : List Row) : List Row :=
  (df_player p df).filter (fun r => (attackingCells r).contains (some p))

/-- `df_player[...DEFENDING_PLAYER_COLS...]` (stats.py line 78). -/
def df_defending_games (p : String) (df : List Row) : List Row :=
  (df_player p df).filter (fun r => (defendingCells r).contains (some p))

/-- `df_player[...defending_other_columns...]` (stats.py line 83). -/
def df_defending_other_games (p : String) (df : List Row) : List Row :=
  (df_player p df).filter (fun r => (defendingOtherCells r).contains (some p))

/-- `df_player[df_player[DEALER_COL] == player_name]` (stats.py line 88). -/
def df_defending_d1_games (p : String) (df : List Row) : List Row :=
  (df_player p df).filter (fun r => r.D1 = some p)

/-- `df['Points'].mean() if not df.empty else 0` (pandas mean of the Points
column over a nonempty frame). -/
def meanPoints (l : List Row) : Rat :=
  if l.isEmpty then 0 else (l.map Row.points).sum / (l.length : Rat)

/-- The nested `calculate_game_level_change(row, player)` (stats.py lines
93–101); also the textually identical nested `get_level_change` inside
`calculate_teammate_opponent_stats` (lines 159–167). -/
def calculate_game_level_change (r : Row) (p : String) : Int :=
  let level_change := get_level_change_value r.result
  if (attackingCells r).contains (some p) then level_change
  else if (defendingCells r).contains (some p) then -level_change
  else 0

/-- `df_player['level_change'].mean() if not df_player.empty else 0`
(stats.py lines 103–104). -/
def meanLevelChange (p : String) (l : List Row) : Rat :=
  if l.isEmpty then 0
  else ((l.map (fun r => calculate_game_level_change r p)).sum : Rat) / (l.length : Rat)

/-- `calculate_player_stats(player_name, df)` (stats.py lines 67–118). -/
def calculate_player_stats (p : String) (df : List Row) : PlayerStats :=
  { avg_attacking := meanPoints (df_attacking_games p df)
    attacking_sample_size := (df_attacking_games p df).length
    avg_defending := meanPoints (df_defending_games p df)
    defending_sample_size := (df_defending_games p df).length
    avg_defending_other := meanPoints (df_defending_other_games p df)
    defending_other_sample_size := (df_defending_other_games p df).length
    avg_defending_d1 := meanPoints (df_defending_d1_games p df)
    defending_d1_sample_size := (df_defending_d1_games p df).length
    avg_level_change := meanLevelChange p (df_player p df)
    level_change_sample_size := (df_player p df).length }

/-! ## Leaderboard Builder — `leaderboard_tables` (stats.py lines 120–144)

The stats mapping argument is a Python dict (insertion-ordered), modelled as
an association list in insertion order.  `DataFrame.sort_values(by=metric,
ascending=asc)` computes `nargsort` on the metric column: a stable ascending
argsort of the values (reversed twice around the argsort when descending, so
equal keys keep their relative order in both directions).  We embed it with
a stable `mergeSort` in the requested direction.  Caveat, recorded here
because the default `kind='quicksort'` is what the source uses: numpy's
introsort only equals a stable sort for argument length ≤ 16 (below the
`SMALL_QUICKSORT` cutoff it runs pure insertion sort); for ≥ 17 qualifying
rows its partition swaps can reorder equal keys, and pandas documents the
default kind as not stable.  No claim settled as `confirmed` depends on the
tie order of this sort.
-/

/-- `df_filtered.sort_values(by=metric, ascending=ascending)` restricted to
the metric key (see the module comment above for the tie-order caveat). -/
def sort_values (key : PlayerStats → Rat) (ascending : Bool)
    (l : List (String × PlayerStats)) : List (String × PlayerStats) :=
  if ascending then l.mergeSort (fun a b => key a.2 ≤ key b.2)
  else l.mergeSort (fun a b => key b.2 ≤ key a.2)

/-- `.round(3)` on a metric value (stats.py line 140; Python float rounding
is modelled by rational rounding — no claim depends on the rounding mode). -/
def round3 (x : Rat) : Rat :=
  ((round (x * 1000) : Int) : Rat) / 1000

/-- One row of a ranked leaderboard frame: the `Rank` column inserted at the
front, the `Player` column from `reset_index`, then the metric value and its
sample size (stats.py lines 137–142). -/
structure LBRow where
  rank : Nat
  player : String
  value : Rat
  sample_size : Nat
deriving Repr, DecidableEq

/-- The `configs` list (stats.py lines 124–130): metric key, its value and
sample-size accessors, and the `ascending` flag. -/
def lbConfigs : List (String × (PlayerStats → Rat) × (PlayerStats → Nat) × Bool) :=
  [("avg. collected when attacking", PlayerStats.avg_attacking,
      PlayerStats.attacking_sample_size, false),
   ("avg. opponents collected when defending", PlayerStats.avg_defending,
      PlayerStats.defending_sample_size, true),
   ("avg. opponents collected defending (teammate)", PlayerStats.avg_defending_other,
      PlayerStats.defending_other_sample_size, true),
   ("avg. opponents collected defending (dealer)", PlayerStats.avg_defending_d1,
      PlayerStats.defending_d1_sample_size, true),
   ("avg. level change", PlayerStats.avg_level_change,
      PlayerStats.level_change_sample_size, false)]

/-- The loop body for one config (stats.py lines 134–143): filter by
`sample_col >= MIN_SAMPLE_SIZE`, sort, round the metric column, reset the
index into a `Player` column and insert `Rank = 1..n`; `none` when the
filtered frame is empty (`continue`). -/
def lbTable (vget : PlayerStats → Rat) (sget : PlayerStats → Nat) (asc : Bool)
    (stats : List (String × PlayerStats)) : Option (List LBRow) :=
  if (stats.filter (fun x => MIN_SAMPLE_SIZE ≤ sget x.2)).isEmpty then none
  else some ((sort_values vget asc
      (stats.filter (fun x => MIN_SAMPLE_SIZE ≤ sget x.2))).enum.map
    (fun ix => ⟨ix.1 + 1, ix.2.1, round3 (vget ix.2.2), sget ix.2.2⟩))

/-- `leaderboard_tables(player_stats_dict, title_prefix)` (stats.py lines
120–144).  The `title_prefix` argument is unused in the source body and
omitted.  The result dict is an association list keyed by metric in config
order. -/
def leaderboard_tables (stats : List (String × PlayerStats)) :
    List (String × List LBRow) :=
  lbConfigs.filterMap (fun cfg =>
    (lbTable cfg.2.1 cfg.2.2.1 cfg.2.2.2 stats).map (fun t => (cfg.1, t)))

/-! ## Teammate/Opponent Aggregator — `calculate_teammate_opponent_stats`
(stats.py lines 151–220)

Python iterates `all_players` in `set` order, which is unspecified; we fix
first-occurrence order (column-major, as the set is populated column by
column).  No claim depends on enumeration order.  The body can raise
`ZeroDivisionError` (`sum(g)/len(g)` with `len(g) = 0`, reachable when
`min_games <= 0`), so the embedding runs in `Except String`.
-/

/-- One value of the returned dicts:
`{'avg. level change': ..., 'games': ...}` (stats.py lines 209–218). -/
structure PairStats where
  avg_level_change : Rat
  games : Nat
deriving Repr, DecidableEq

/-- The slot-location loop (stats.py lines 184–191): the last column in
`ALL_PLAYER_COLS` order whose cell equals the name (later assignments
overwrite earlier ones), as an index into `allCells` (indices 0–4 are the
attacking columns). -/
def findSlot (r : Row) (name : String) : Option Nat :=
  (((allCells r).enum.filter (fun ic => ic.2 = some name)).getLast?).map (fun ic => ic.1)

/-- `player_games[col].dropna().unique()` accumulated over `ALL_PLAYER_COLS`
into a set, then `discard(player_name)` (stats.py lines 173–176). -/
def all_players_except (p : String) (games : List Row) : List String :=
  (((List.range 9).flatMap (fun i =>
      games.filterMap (fun r => ((allCells r).get? i).join))).dedup).filter
    (fun q => q ≠ p)

/-- One iteration of the per-pair row loop (stats.py lines 182–205): locate
both players' slots; when both are present, append the focal player's
signed level change to `teammate_games` (the first accumulator) if both are
attacking or both defending — the attacking slots are indices 0–4 of
`allCells` — else to `opponent_games` (the second). -/
def pairStep (p q : String) (acc : List Int × List Int) (game : Row) :
    List Int × List Int :=
  match findSlot game p, findSlot game q with
  | some ppos, some opos =>
    let level_change := calculate_game_level_change game p
    if (decide (ppos < 5)) = (decide (opos < 5)) then
      (acc.1 ++ [level_change], acc.2)
    else
      (acc.1, acc.2 ++ [level_change])
  | _, _ => acc

/-- The per-pair row loop (stats.py lines 179–205), accumulating
`(teammate_games, opponent_games)` over the focal player's games. -/
def pairGames (p q : String) (player_games : List Row) : List Int × List Int :=
  player_games.foldl (pairStep p q) ([], [])

/-- `sum(games)/len(games)` guarded by `len(games) >= min_games` (stats.py
lines 208–218): `none` when the guard fails (no entry emitted); Python's
true division raises `ZeroDivisionError` when `len(games) = 0`, which is
reachable only for `min_games <= 0`. -/
def emit_entry (games : List Int) (min_games : Int) : Except String (Option PairStats) :=
  if min_games ≤ (games.length : Int) then
    if games.length = 0 then Except.error "ZeroDivisionError: division by zero"
    else Except.ok (some ⟨((games.sum : Int) : Rat) / (games.length : Rat), games.length⟩)
  else Except.ok none

/-- The body of the `for other_player in all_players` loop for one other
player (stats.py lines 178–218): build the two groups, then apply the two
independent `min_games` emission guards. -/
def pairEntries (p : String) (player_games : List Row) (min_games : Int)
    (q : String) :
    Except String (String × Option PairStats × Option PairStats) := do
  let tg := (pairGames p q player_games).1
  let og := (pairGames p q player_games).2
  let te ← emit_entry tg min_games
  let oe ← emit_entry og min_games
  pure (q, te, oe)

/-- `calculate_teammate_opponent_stats(player_name, df, min_games)`
(stats.py lines 151–220).  Returns the pair of dicts (teammate, opponent)
as association lists, or the uncaught exception. -/
def calculate_teammate_opponent_stats (p : String) (df : List Row)
    (min_games : Int) :
    Except String (List (String × PairStats) × List (String × PairStats)) := do
  let player_games := df.filter (fun r => (allCells r).contains (some p))
  if player_games.isEmpty then
    return ([], [])
  let others := all_players_except p player_games
  let entries ← others.mapM (pairEntries p player_games min_games)
  return (entries.filterMap (fun x => x.2.1.map (fun e => (x.1, e))),
          entries.filterMap (fun x => x.2.2.map (fun e => (x.1, e))))

/-- The worked example row of spec §8: attacking `X, Y`, defending `Z, W`,
`Points = 3`, `Result = "A+2"`. -/
def exampleRow : Row :=
  { A1 := some "X", A2 := some "Y", A3 := none, A4 := none, A5 := none,
    D1 := some "Z", D2 := some "W", D3 := none, D4 := none,
    points := 3, result := some "A+2" }

example : (calculate_player_stats "X" [exampleRow]).attacking_sample_size = 1 := by decide
example : (calculate_player_stats "X" [exampleRow]).avg_attacking = 3 := by
  norm_num +decide [calculate_player_stats, meanPoints, df_attacking_games, df_player,
    exampleRow, allCells, attackingCells, defendingCells, List.filter]
example : (calculate_player_stats "X" [exampleRow]).avg_level_change = 2 := by
  norm_num +decide [calculate_player_stats, meanLevelChange, df_player, exampleRow,
    allCells, attackingCells, defendingCells, List.filter, calculate_game_level_change,
    get_level_change_value]
example : (calculate_player_stats "Z" [exampleRow]).defending_d1_sample_size = 1 := by decide
example : (calculate_player_stats "Z" [exampleRow]).avg_level_change = -2 := by
  norm_num +decide [calculate_player_stats, meanLevelChange, df_player, exampleRow,
    allCells, attackingCells, defendingCells, List.filter, calculate_game_level_change,
    get_level_change_value]
example : (calculate_player_stats "Z" [exampleRow]).attacking_sample_size = 0 := by decide
example :
    calculate_teammate_opponent_stats "X" [exampleRow] 0 =
      Except.error "ZeroDivisionError: division by zero" := by rfl
example : leaderboard_tables [] = [] := by decide

/-! ## Theorems — Data Loader / Cache claims -/

/-- A concrete warm cache state used by witnesses: one stored frame,
fetched at time 0. -/
def warmCache : Cache := ⟨some [("Points", ["80"])], some 0, 300⟩

/-- C2: with `force_refresh` false and a cache entry younger than the
freshness window, `load_data` returns the cached table, leaves the cache
unchanged and performs no external fetch; consequently, when a first call
performs a fetch that succeeds, a second call within the freshness window
of that fetch performs no fetch — two such calls perform exactly one
external fetch between them. -/
theorem C2_fresh_cache_no_fetch (c : Cache) (d : PDataFrame) (ts now : Nat)
    (fetch : Except String PDataFrame)
    (h1 : c.data = some d) (h2 : c.timestamp = some ts)
    (h3 : now - ts < c.cache_duration) :
    load_data false c now fetch = (d, c, false) ∧
    ∀ (c0 : Cache) (t0 t1 : Nat) (df : PDataFrame) (f2 : Except String PDataFrame),
      (load_data false c0 t0 (Except.ok df)).2.2 = true →
      t1 - t0 < c0.cache_duration →
      (load_data false (load_data false c0 t0 (Except.ok df)).2.1 t1 f2).2.2 = false := by
  constructor
  · obtain ⟨cd, cts, dur⟩ := c
    simp only [Cache.data] at h1
    simp only [Cache.timestamp] at h2
    subst h1; subst h2
    simp only [Cache.cache_duration] at h3
    simp [load_data, h3]
  · intro c0 t0 t1 df f2 hflag hwin
    obtain ⟨cd0, cts0, dur0⟩ := c0
    simp only [Cache.cache_duration] at hwin
    cases cd0 with
    | none =>
      have hc1 : load_data false ⟨none, cts0, dur0⟩ t0 (Except.ok df) =
          (df, ⟨some df, some t0, dur0⟩, true) := by
        simp [load_data, fetch_branch]
      rw [hc1]
      simp [load_data, hwin]
    | some d0 =>
      cases cts0 with
      | none =>
        have hc1 : load_data false ⟨some d0, none, dur0⟩ t0 (Except.ok df) =
            (df, ⟨some df, some t0, dur0⟩, true) := by
          simp [load_data, fetch_branch]
        rw [hc1]
        simp [load_data, hwin]
      | some ts0 =>
        by_cases hfresh : t0 - ts0 < dur0
        · simp [load_data, hfresh] at hflag
        · have hc1 : load_data false ⟨some d0, some ts0, dur0⟩ t0 (Except.ok df) =
              (df, ⟨some df, some t0, dur0⟩, true) := by
            simp [load_data, fetch_branch, hfresh]
          rw [hc1]
          simp [load_data, hwin]

/-- Witness for C2 at a concrete input: a warm cache aged 10 s is served
without a fetch, and after a cold fetch at time 0 a second call at time
250 s performs no fetch. -/
theorem C2_witness :
    load_data false warmCache 10 (Except.error "offline") =
      ([("Points", ["80"])], warmCache, false) ∧
    (load_data false
        (load_data false initCache 0 (Except.ok [("Points", ["80"])])).2.1
        250 (Except.error "offline")).2.2 = false := by
  have h := C2_fresh_cache_no_fetch warmCache [("Points", ["80"])] 0 10
    (Except.error "offline") rfl rfl (by decide)
  exact ⟨h.1, h.2 initCache 0 250 [("Points", ["80"])] (Except.error "offline")
    (by decide) (by decide)⟩

/-- C3: when the attempted fetch fails, `load_data` returns the previously
cached table whenever one exists (for any `force_refresh` and any entry
age), and otherwise returns the single-column frame whose only column is
`"Error"` and whose sole value is the failure description. -/
theorem C3_fetch_failure_fallback (force : Bool) (c : Cache) (now : Nat)
    (e : String) :
    (∀ d, c.data = some d → (load_data force c now (Except.error e)).1 = d) ∧
    (c.data = none → (load_data force c now (Except.error e)).1 = errorFrame e) := by
  obtain ⟨cd, cts, dur⟩ := c
  constructor
  · intro d hd
    simp only [Cache.data] at hd
    subst hd
    cases cts with
    | none => simp [load_data, fetch_branch]
    | some ts =>
      by_cases hfresh : force = false ∧ now - ts < dur
      · simp [load_data, hfresh]
      · simp [load_data, hfresh, fetch_branch]
  · intro hd
    simp only [Cache.data] at hd
    subst hd
    cases cts <;> simp [load_data, fetch_branch]

/-- Witness for C3 at a concrete input: with a stale warm cache (age 1000 s
≥ 300 s) and a failing fetch under `force_refresh = true`, the cached frame
is returned; with an empty cache the `"Error"` frame is returned. -/
theorem C3_witness :
    (load_data true warmCache 1000 (Except.error "offline")).1 =
      [("Points", ["80"])] ∧
    (load_data false initCache 1000 (Except.error "offline")).1 =
      errorFrame "offline" := by
  exact ⟨(C3_fetch_failure_fallback true warmCache 1000 "offline").1
          [("Points", ["80"])] rfl,
         (C3_fetch_failure_fallback false initCache 1000 "offline").2 rfl⟩

/-- C4: `clear_cache` unconditionally discards both the cached table and
the timestamp, and every `load_data` call on the cleared state attempts the
external fetch, whatever `force_refresh`, the clock and the fetch outcome. -/
theorem C4_clear_cache_discards_and_forces_fetch (c : Cache) :
    (clear_cache c).data = none ∧ (clear_cache c).timestamp = none ∧
    ∀ (force : Bool) (now : Nat) (fetch : Except String PDataFrame),
      (load_data force (clear_cache c) now fetch).2.2 = true := by
  refine ⟨rfl, rfl, ?_⟩
  intro force now fetch
  cases fetch <;> simp [clear_cache, load_data, fetch_branch]

/-- C10: a failing fetch leaves the cache entry (table and timestamp)
completely unchanged, and consequently any later call on that unchanged
state whose clock lies outside the entry's freshness window attempts the
fetch again. -/
theorem C10_failure_preserves_cache (force : Bool) (c : Cache) (now : Nat)
    (e : String) :
    (load_data force c now (Except.error e)).2.1 = c ∧
    ∀ (force2 : Bool) (now2 : Nat) (f2 : Except String PDataFrame) (ts : Nat),
      c.timestamp = some ts → c.cache_duration ≤ now2 - ts →
      (load_data force2 (load_data force c now (Except.error e)).2.1 now2
        f2).2.2 = true := by
  obtain ⟨cd, cts, dur⟩ := c
  have hunch : (load_data force ⟨cd, cts, dur⟩ now (Except.error e)).2.1 =
      ⟨cd, cts, dur⟩ := by
    cases cd with
    | none => simp [load_data, fetch_branch]
    | some d =>
      cases cts with
      | none => simp [load_data, fetch_branch]
      | some ts =>
        by_cases hfresh : force = false ∧ now - ts < dur
        · simp [load_data, hfresh]
        · simp [load_data, hfresh, fetch_branch]
  refine ⟨hunch, ?_⟩
  intro force2 now2 f2 ts hts hstale
  rw [hunch]
  simp only [Cache.timestamp] at hts
  subst hts
  simp only [Cache.cache_duration] at hstale
  cases cd with
  | none => cases f2 <;> simp [load_data, fetch_branch]
  | some d =>
    have : ¬ (now2 - ts < dur) := by omega
    cases f2 <;> simp [load_data, fetch_branch, this]

/-- Witness for C10 at a concrete input: a failed fetch at time 1000 s on
the warm cache (entry timestamp 0) leaves the cache unchanged, and the next
call at time 1000 s (outside the 300 s window) attempts the fetch. -/
theorem C10_witness :
    (load_data false warmCache 1000 (Except.error "offline")).2.1 = warmCache ∧
    (load_data false
        (load_data false warmCache 1000 (Except.error "offline")).2.1 1000
        (Except.ok [("Points", ["80"])])).2.2 = true := by
  have h := C10_failure_preserves_cache false warmCache 1000 "offline"
  exact ⟨h.1, h.2 false 1000 (Except.ok [("Points", ["80"])]) 0 rfl (by decide)⟩

/-! ## Lemmas about the embedded Python string primitives -/

theorem dropWhile_dropWhile (p : Char → Bool) (l : List Char) :
    (l.dropWhile p).dropWhile p = l.dropWhile p := by
  induction l with
  | nil => rfl
  | cons c rest ih =>
    by_cases hc : p c
    · simp [List.dropWhile_cons, hc, ih]
    · simp [List.dropWhile_cons, hc]

theorem rstripList_idem (l : List Char) :
    rstripList (rstripList l) = rstripList l := by
  unfold rstripList
  rw [List.reverse_reverse, dropWhile_dropWhile]

theorem rstripList_cons (c : Char) (l : List Char) :
    rstripList (c :: l) =
      if rstripList l = [] then (if pyIsSpace c then [] else [c])
      else c :: rstripList l := by
  unfold rstripList
  rw [show (c :: l).reverse = l.reverse ++ [c] from by simp]
  rw [List.dropWhile_append]
  by_cases h : (l.reverse.dropWhile pyIsSpace) = []
  · simp only [h, List.isEmpty_nil, if_true, List.reverse_eq_nil_iff]
    by_cases hc : pyIsSpace c <;> simp [List.dropWhile_cons, hc, h]
  · have : (l.reverse.dropWhile pyIsSpace).isEmpty = false := by
      simpa [List.isEmpty_iff] using h
    simp only [this, Bool.false_eq_true, if_false, List.reverse_append,
      List.reverse_cons, List.reverse_nil, List.nil_append, List.cons_append,
      List.reverse_eq_nil_iff]
    simp [h]

theorem lstrip_rstrip_comm (l : List Char) :
    lstripList (rstripList l) = rstripList (lstripList l) := by
  induction l with
  | nil => rfl
  | cons c rest ih =>
    by_cases hc : pyIsSpace c
    · have h1 : lstripList (c :: rest) = lstripList rest := by
        simp [lstripList, List.dropWhile_cons, hc]
      rw [h1, ← ih, rstripList_cons]
      by_cases hr : rstripList rest = []
      · rw [if_pos hr, if_pos hc, hr]
      · rw [if_neg hr]
        simp [lstripList, List.dropWhile_cons, hc]
    · have h1 : lstripList (c :: rest) = c :: rest := by
        simp [lstripList, List.dropWhile_cons, hc]
      rw [h1, rstripList_cons]
      by_cases hr : rstripList rest = []
      · rw [if_pos hr, if_neg (by simpa using hc)]
        simp [lstripList, List.dropWhile_cons, hc]
      · rw [if_neg hr]
        simp [lstripList, List.dropWhile_cons, hc]

theorem pyStripList_rstrip (l : List Char) :
    pyStripList (rstripList l) = pyStripList l := by
  unfold pyStripList
  rw [lstrip_rstrip_comm, rstripList_idem, ← lstrip_rstrip_comm,
    lstrip_rstrip_comm]

theorem pyIntList?_rstrip (l : List Char) :
    pyIntList? (rstripList l) = pyIntList? l := by
  unfold pyIntList?
  rw [pyStripList_rstrip]

theorem dropWhile_append_head_false (p : Char → Bool) (u : List Char) (a : Char)
    (v : List Char) (ha : p a = false) :
    (u ++ a :: v).dropWhile p = u.dropWhile p ++ a :: v := by
  rw [List.dropWhile_append]
  by_cases h : (u.dropWhile p).isEmpty
  · rw [if_pos h]
    simp only [List.isEmpty_iff] at h
    simp [h, List.dropWhile_cons, ha]
  · rw [if_neg h]

theorem rstripList_cons2 (a b : Char) (t : List Char)
    (ha : pyIsSpace b = false) :
    rstripList (a :: b :: t) = a :: b :: rstripList t := by
  unfold rstripList
  rw [show (a :: b :: t).reverse = t.reverse ++ b :: [a] from by simp]
  rw [dropWhile_append_head_false pyIsSpace t.reverse b [a] ha]
  simp

theorem pyStripList_AP (t : List Char) :
    pyStripList ('A' :: '+' :: t) = 'A' :: '+' :: rstripList t := by
  unfold pyStripList
  have h1 : lstripList ('A' :: '+' :: t) = 'A' :: '+' :: t := by
    simp [lstripList, List.dropWhile_cons, pyIsSpace]
  rw [h1, rstripList_cons2 _ _ _ (by decide)]

theorem pyStripList_DP (t : List Char) :
    pyStripList ('D' :: '+' :: t) = 'D' :: '+' :: rstripList t := by
  unfold pyStripList
  have h1 : lstripList ('D' :: '+' :: t) = 'D' :: '+' :: t := by
    simp [lstripList, List.dropWhile_cons, pyIsSpace]
  rw [h1, rstripList_cons2 _ _ _ (by decide)]

/-- Value of a digit string under the accumulator fold of the integer
scanner, stated independently of the parser. -/
def digitsToNat (l : List Char) : Nat :=
  l.foldl (fun a c => a * 10 + digitVal c) 0

theorem pyDigitsCore_digits (l : List Char) (acc : Nat)
    (h : ∀ c ∈ l, isAsciiDigit c = true) :
    pyDigitsCore acc l = some (l.foldl (fun a c => a * 10 + digitVal c) acc) := by
  induction l generalizing acc with
  | nil => rfl
  | cons c rest ih =>
    have hc : isAsciiDigit c = true := h c (List.mem_cons_self c rest)
    have hcu : ¬(c = '_') := by
      intro he
      rw [he] at hc
      exact absurd hc (by decide)
    cases rest with
    | nil =>
      rw [pyDigitsCore.eq_2, if_neg hcu, if_pos hc, pyDigitsCore.eq_1]
      simp [List.foldl]
    | cons d rest2 =>
      rw [pyDigitsCore.eq_3, if_neg hcu, if_pos hc, List.foldl_cons]
      exact ih _ (fun x hx => h x (List.mem_cons_of_mem c hx))

theorem pyDigits?_digits (l : List Char) (hne : l ≠ [])
    (h : ∀ c ∈ l, isAsciiDigit c = true) :
    pyDigits? l = some (digitsToNat l) := by
  cases l with
  | nil => exact absurd rfl hne
  | cons c rest =>
    rw [pyDigits?, if_pos (h c (List.mem_cons_self c rest))]
    rw [pyDigitsCore_digits rest _ (fun d hd => h d (List.mem_cons_of_mem c hd))]
    rw [digitsToNat, List.foldl_cons]
    norm_num

theorem digit_not_space {c : Char} (h : isAsciiDigit c = true) :
    pyIsSpace c = false := by
  revert h
  unfold isAsciiDigit pyIsSpace
  intro h
  simp only [Bool.and_eq_true, decide_eq_true_eq] at h
  obtain ⟨h1, h2⟩ := h
  simp only [Bool.or_eq_false_iff, decide_eq_false_iff_not]
  refine ⟨⟨⟨⟨⟨?_, ?_⟩, ?_⟩, ?_⟩, ?_⟩, ?_⟩ <;>
    (intro he; rw [he] at h1 h2; revert h1 h2; decide)

theorem rstripList_all_digits (l : List Char)
    (h : ∀ c ∈ l, isAsciiDigit c = true) :
    rstripList l = l := by
  unfold rstripList
  rw [List.dropWhile_eq_self_iff.mpr, List.reverse_reverse]
  intro hd
  have hmem : l.reverse.get ⟨0, hd⟩ ∈ l := by
    rw [← List.mem_reverse]
    exact List.get_mem _ _ _
  simp only [Bool.not_eq_true]
  exact digit_not_space (h _ hmem)

theorem lstripList_all_digits (l : List Char)
    (h : ∀ c ∈ l, isAsciiDigit c = true) :
    lstripList l = l := by
  unfold lstripList
  rw [List.dropWhile_eq_self_iff.mpr]
  intro hd
  simp only [Bool.not_eq_true]
  exact digit_not_space (h _ (List.get_mem l 0 hd))

theorem pyIntList?_digits (l : List Char) (hne : l ≠ [])
    (h : ∀ c ∈ l, isAsciiDigit c = true) :
    pyIntList? l = some ((digitsToNat l : Nat) : Int) := by
  unfold pyIntList?
  have hs : pyStripList l = l := by
    unfold pyStripList
    rw [lstripList_all_digits l h, rstripList_all_digits l h]
  rw [hs]
  cases l with
  | nil => exact absurd rfl hne
  | cons c rest =>
    have hc := h c (List.mem_cons_self c rest)
    have hcp : ¬((c :: rest).head? = some '+') := by
      simp only [List.head?_cons, Option.some.injEq]
      intro he
      rw [he] at hc
      exact absurd hc (by decide)
    have hcm : ¬((c :: rest).head? = some '-') := by
      simp only [List.head?_cons, Option.some.injEq]
      intro he
      rw [he] at hc
      exact absurd hc (by decide)
    rw [if_neg hcp, if_neg hcm, pyDigits?_digits (c :: rest) hne h]
    rfl

theorem pyIntList?_neg_digits (l : List Char) (hne : l ≠ [])
    (h : ∀ c ∈ l, isAsciiDigit c = true) :
    pyIntList? ('-' :: l) = some (-(digitsToNat l : Int)) := by
  have hstrip : pyStripList ('-' :: l) = '-' :: l := by
    unfold pyStripList
    have h1 : lstripList ('-' :: l) = '-' :: l := by
      simp [lstripList, List.dropWhile_cons, pyIsSpace]
    rw [h1, rstripList_cons, rstripList_all_digits l h]
    cases hl : l with
    | nil => exact absurd hl hne
    | cons a b =>
      rw [if_neg (by simp)]
  unfold pyIntList?
  rw [hstrip]
  have hplus : ¬(('-' :: l).head? = some '+') := by
    intro hcon
    rw [List.head?_cons] at hcon
    injection hcon with h1
    exact absurd h1 (by decide)
  rw [if_neg hplus, if_pos (show ('-' :: l).head? = some '-' from rfl)]
  rw [show ('-' :: l).tail = l from rfl, pyDigits?_digits l hne h]
  rfl

theorem pyStripList_cons_space (l : List Char) :
    pyStripList (' ' :: l) = pyStripList l := by
  unfold pyStripList
  have h1 : lstripList (' ' :: l) = lstripList l := by
    simp [lstripList, List.dropWhile_cons, pyIsSpace]
  rw [h1]

theorem pyStripList_append_space (l : List Char) :
    pyStripList (l ++ [' ']) = pyStripList l := by
  have hr : rstripList (l ++ [' ']) = rstripList l := by
    unfold rstripList
    rw [List.reverse_append]
    simp only [List.reverse_cons, List.reverse_nil, List.nil_append,
      List.singleton_append]
    rw [List.dropWhile_cons, if_pos (by decide)]
  calc pyStripList (l ++ [' '])
      = rstripList (lstripList (l ++ [' '])) := rfl
    _ = lstripList (rstripList (l ++ [' '])) := (lstrip_rstrip_comm _).symm
    _ = lstripList (rstripList l) := by rw [hr]
    _ = rstripList (lstripList l) := lstrip_rstrip_comm _
    _ = pyStripList l := rfl

theorem cons_ne_draw (a : Char) (t : List Char) (ha : a = 'D' → False) :
    ¬(a :: t = "Draw".data) := by
  intro hcon
  rw [show "Draw".data = ['D', 'r', 'a', 'w'] from rfl] at hcon
  injection hcon with h1 _
  exact ha h1

theorem dplus_ne_draw (t : List Char) : ¬('D' :: '+' :: t = "Draw".data) := by
  intro hcon
  rw [show "Draw".data = ['D', 'r', 'a', 'w'] from rfl] at hcon
  injection hcon with _ h2
  injection h2 with h3 _
  exact absurd h3 (by decide)

theorem glcvCore_AP (t : List Char) :
    glcvCore ('A' :: '+' :: t) = (pyIntList? t).getD 0 := by
  unfold glcvCore
  rw [if_neg (cons_ne_draw 'A' ('+' :: t) (by intro h; exact absurd h (by decide))),
    if_pos (show ('A' :: '+' :: t).take 2 = ['A', '+'] from rfl)]
  rfl

theorem glcvCore_DP (t : List Char) :
    glcvCore ('D' :: '+' :: t) = -((pyIntList? t).getD 0) := by
  unfold glcvCore
  have hAP : ¬(('D' :: '+' :: t).take 2 = ['A', '+']) := by
    intro hcon
    rw [show ('D' :: '+' :: t).take 2 = ['D', '+'] from rfl] at hcon
    injection hcon with h1 _
    exact absurd h1 (by decide)
  rw [if_neg (dplus_ne_draw t), if_neg hAP,
    if_pos (show ('D' :: '+' :: t).take 2 = ['D', '+'] from rfl)]
  rfl

/-! ## Theorems — Result Encoder claim (C1) -/

/-- C1 counterexample: the claim's case analysis sends `"A+-3"` to the
catch-all "any other string returns 0" case — the trimmed string is not
`"Draw"` and its suffix after `"A+"` is not a digit string — yet the code
returns `-3`, because Python's `int()` accepts a sign:
`int("-3") == -3`. -/
theorem C1_counterexample :
    get_level_change_value (some "A+-3") = -3 ∧
    ("A+-3".data.drop 2).all isAsciiDigit = false ∧
    "A+-3".data.take 2 = ['A', '+'] ∧
    "A+-3" ≠ "Draw" := by decide

/-- C1 (amended): `get_level_change_value` returns 0 on a missing value and
on `"Draw"`; surrounding whitespace is trimmed before matching; a string
`"A+" ++ rest` (resp. `"D+" ++ rest`) yields `int(rest)` (resp.
`-int(rest)`) under Python integer parsing — in particular `+digits` for a
digit suffix, but a signed suffix such as `"A+-3"` yields the negated
digits — with 0 when the parse fails; and every string matching none of
the branches yields 0.  The function is total: no exception escapes. -/
theorem C1_encoder_amended (l : List Char) (hne : l ≠ [])
    (hdig : ∀ c ∈ l, isAsciiDigit c = true) :
    get_level_change_value none = 0 ∧
    get_level_change_value (some "Draw") = 0 ∧
    (∀ s : String,
      get_level_change_value (some ⟨' ' :: s.data⟩) =
        get_level_change_value (some s) ∧
      get_level_change_value (some ⟨s.data ++ [' ']⟩) =
        get_level_change_value (some s)) ∧
    get_level_change_value (some ⟨'A' :: '+' :: l⟩) = (digitsToNat l : Int) ∧
    get_level_change_value (some ⟨'D' :: '+' :: l⟩) = -(digitsToNat l : Int) ∧
    get_level_change_value (some ⟨'A' :: '+' :: '-' :: l⟩) =
      -(digitsToNat l : Int) ∧
    (∀ t : List Char, pyIntList? t = none →
      get_level_change_value (some ⟨'A' :: '+' :: t⟩) = 0 ∧
      get_level_change_value (some ⟨'D' :: '+' :: t⟩) = 0) ∧
    (∀ t : List Char, pyStripList t ≠ "Draw".data →
      (pyStripList t).take 2 ≠ ['A', '+'] →
      (pyStripList t).take 2 ≠ ['D', '+'] →
      get_level_change_value (some ⟨t⟩) = 0) := by
  have hA : ∀ t : List Char,
      get_level_change_value (some ⟨'A' :: '+' :: t⟩) =
        (pyIntList? (rstripList t)).getD 0 := by
    intro t
    show glcvCore (pyStripList ('A' :: '+' :: t)) = _
    rw [pyStripList_AP, glcvCore_AP]
  have hD : ∀ t : List Char,
      get_level_change_value (some ⟨'D' :: '+' :: t⟩) =
        -((pyIntList? (rstripList t)).getD 0) := by
    intro t
    show glcvCore (pyStripList ('D' :: '+' :: t)) = _
    rw [pyStripList_DP, glcvCore_DP]
  refine ⟨rfl, by decide, ?_, ?_, ?_, ?_, ?_, ?_⟩
  · intro s
    constructor
    · show glcvCore (pyStripList (' ' :: s.data)) =
        glcvCore (pyStripList s.data)
      rw [pyStripList_cons_space]
    · show glcvCore (pyStripList (s.data ++ [' '])) =
        glcvCore (pyStripList s.data)
      rw [pyStripList_append_space]
  · rw [hA, rstripList_all_digits l hdig, pyIntList?_digits l hne hdig]
    rfl
  · rw [hD, rstripList_all_digits l hdig, pyIntList?_digits l hne hdig]
    rfl
  · have hml : rstripList ('-' :: l) = '-' :: l := by
      rw [rstripList_cons, rstripList_all_digits l hdig]
      cases hl : l with
      | nil => exact absurd hl hne
      | cons a b =>
        rw [if_neg (by simp)]
    rw [hA, hml, pyIntList?_neg_digits l hne hdig]
    rfl
  · intro t ht
    constructor
    · rw [hA, pyIntList?_rstrip, ht]
      rfl
    · rw [hD, pyIntList?_rstrip, ht]
      rfl
  · intro t h1 h2 h3
    show glcvCore (pyStripList t) = 0
    unfold glcvCore
    rw [if_neg h1, if_neg h2, if_neg h3]

/-- Witness for C1 at concrete inputs: `"A+42"` decodes to `42` and
`"D+42"` to `-42`. -/
theorem C1_witness :
    get_level_change_value (some ⟨['A', '+', '4', '2']⟩) = 42 ∧
    get_level_change_value (some ⟨['D', '+', '4', '2']⟩) = -42 := by
  have h := C1_encoder_amended ['4', '2'] (by decide) (by decide)
  exact ⟨h.2.2.2.1.trans (by decide), h.2.2.2.2.1.trans (by decide)⟩

/-! ## Theorems — Player Stat Aggregator claims (C5, C6) -/

/-- C5: in `calculate_player_stats`, each of the five metric subsets
(attacking, all-defending, non-dealer defending, dealer defending, full
participation for level change) that has zero rows yields metric value 0
and sample size 0.  The embedded aggregator is a total function into
`Rat`/`Nat`, so no division by zero, NaN or exception can arise. -/
theorem C5_empty_subsets_zero (p : String) (df : List Row) :
    (df_attacking_games p df = [] →
      (calculate_player_stats p df).avg_attacking = 0 ∧
      (calculate_player_stats p df).attacking_sample_size = 0) ∧
    (df_defending_games p df = [] →
      (calculate_player_stats p df).avg_defending = 0 ∧
      (calculate_player_stats p df).defending_sample_size = 0) ∧
    (df_defending_other_games p df = [] →
      (calculate_player_stats p df).avg_defending_other = 0 ∧
      (calculate_player_stats p df).defending_other_sample_size = 0) ∧
    (df_defending_d1_games p df = [] →
      (calculate_player_stats p df).avg_defending_d1 = 0 ∧
      (calculate_player_stats p df).defending_d1_sample_size = 0) ∧
    (df_player p df = [] →
      (calculate_player_stats p df).avg_level_change = 0 ∧
      (calculate_player_stats p df).level_change_sample_size = 0) := by
  refine ⟨fun h => ?_, fun h => ?_, fun h => ?_, fun h => ?_, fun h => ?_⟩ <;>
    simp [calculate_player_stats, meanPoints, meanLevelChange, h]

/-- Witness for C5 at a concrete input: for the empty table every subset is
empty and every metric/sample-size pair is (0, 0). -/
theorem C5_witness :
    (calculate_player_stats "X" []).avg_attacking = 0 ∧
    (calculate_player_stats "X" []).attacking_sample_size = 0 ∧
    (calculate_player_stats "X" []).avg_defending = 0 ∧
    (calculate_player_stats "X" []).defending_sample_size = 0 ∧
    (calculate_player_stats "X" []).avg_defending_other = 0 ∧
    (calculate_player_stats "X" []).defending_other_sample_size = 0 ∧
    (calculate_player_stats "X" []).avg_defending_d1 = 0 ∧
    (calculate_player_stats "X" []).defending_d1_sample_size = 0 ∧
    (calculate_player_stats "X" []).avg_level_change = 0 ∧
    (calculate_player_stats "X" []).level_change_sample_size = 0 := by
  have h := C5_empty_subsets_zero "X" []
  exact ⟨(h.1 rfl).1, (h.1 rfl).2, (h.2.1 rfl).1, (h.2.1 rfl).2,
    (h.2.2.1 rfl).1, (h.2.2.1 rfl).2, (h.2.2.2.1 rfl).1, (h.2.2.2.1 rfl).2,
    (h.2.2.2.2 rfl).1, (h.2.2.2.2 rfl).2⟩

theorem length_filter_add_length_filter_le {α : Type} (l : List α)
    (a b : α → Bool) (h : ∀ x ∈ l, ¬(a x = true ∧ b x = true)) :
    (l.filter a).length + (l.filter b).length ≤ l.length := by
  induction l with
  | nil => simp
  | cons x rest ih =>
    have hx := h x (List.mem_cons_self x rest)
    have ih2 := ih (fun y hy => h y (List.mem_cons_of_mem x hy))
    by_cases ha : a x = true
    · by_cases hb : b x = true
      · exact absurd ⟨ha, hb⟩ hx
      · simp only [List.filter_cons, ha, hb, if_true, Bool.false_eq_true,
          if_false, List.length_cons]
        omega
    · by_cases hb : b x = true <;>
        simp only [List.filter_cons, ha, hb, if_true, Bool.false_eq_true,
          if_false, List.length_cons] <;>
        omega

theorem length_filter_mono {α : Type} (l : List α) (a b : α → Bool)
    (h : ∀ x ∈ l, a x = true → b x = true) :
    (l.filter a).length ≤ (l.filter b).length := by
  induction l with
  | nil => simp
  | cons x rest ih =>
    have ih2 := ih (fun y hy hay => h y (List.mem_cons_of_mem x hy) hay)
    by_cases ha : a x = true
    · rw [List.filter_cons_of_pos ha,
        List.filter_cons_of_pos (h x (List.mem_cons_self x rest) ha)]
      simpa using ih2
    · rw [List.filter_cons_of_neg (by simpa using ha)]
      by_cases hb : b x = true
      · rw [List.filter_cons_of_pos hb]
        exact le_trans ih2 (by simp)
      · rw [List.filter_cons_of_neg (by simpa using hb)]
        exact ih2

/-- C6: under the data-model invariant that the player's name occupies at
most one slot per record, every sample size of the returned StatBundle is
bounded by the player's participation count, attacking and all-defending
sample sizes sum to at most the participation count, and the
dealer-defending sample size is at most the all-defending one. -/
theorem C6_sample_size_bounds (p : String) (df : List Row)
    (hInv : ∀ r ∈ df, (allCells r).count (some p) ≤ 1) :
    (calculate_player_stats p df).attacking_sample_size ≤
      (df_player p df).length ∧
    (calculate_player_stats p df).defending_sample_size ≤
      (df_player p df).length ∧
    (calculate_player_stats p df).defending_other_sample_size ≤
      (df_player p df).length ∧
    (calculate_player_stats p df).defending_d1_sample_size ≤
      (df_player p df).length ∧
    (calculate_player_stats p df).level_change_sample_size ≤
      (df_player p df).length ∧
    (calculate_player_stats p df).attacking_sample_size +
      (calculate_player_stats p df).defending_sample_size ≤
      (df_player p df).length ∧
    (calculate_player_stats p df).defending_d1_sample_size ≤
      (calculate_player_stats p df).defending_sample_size := by
  simp only [calculate_player_stats]
  refine ⟨List.length_filter_le _ _, List.length_filter_le _ _,
    List.length_filter_le _ _, List.length_filter_le _ _, le_refl _, ?_, ?_⟩
  · apply length_filter_add_length_filter_le
    intro r hr hcon
    obtain ⟨hatk, hdef⟩ := hcon
    have hrdf : r ∈ df := List.mem_of_mem_filter hr
    have hcnt := hInv r hrdf
    have h1 : some p ∈ attackingCells r := by
      simpa [List.contains] using hatk
    have h2 : some p ∈ defendingCells r := by
      simpa [List.contains] using hdef
    rw [allCells, List.count_append] at hcnt
    have hc1 : 1 ≤ (attackingCells r).count (some p) :=
      List.one_le_count_iff.mpr h1
    have hc2 : 1 ≤ (defendingCells r).count (some p) :=
      List.one_le_count_iff.mpr h2
    omega
  · apply length_filter_mono
    intro r _ hd1
    have : r.D1 = some p := of_decide_eq_true hd1
    have : some p ∈ defendingCells r := by
      rw [defendingCells, ← this]
      exact List.mem_cons_self _ _
    simpa [List.contains] using this

/-- Witness for C6 at a concrete input: the spec §8 example row satisfies
the one-slot-per-record invariant, and the bounds hold for player `"X"`. -/
theorem C6_witness :
    (calculate_player_stats "X" [exampleRow]).attacking_sample_size ≤
      (df_player "X" [exampleRow]).length ∧
    (calculate_player_stats "X" [exampleRow]).defending_sample_size ≤
      (df_player "X" [exampleRow]).length ∧
    (calculate_player_stats "X" [exampleRow]).defending_other_sample_size ≤
      (df_player "X" [exampleRow]).length ∧
    (calculate_player_stats "X" [exampleRow]).defending_d1_sample_size ≤
      (df_player "X" [exampleRow]).length ∧
    (calculate_player_stats "X" [exampleRow]).level_change_sample_size ≤
      (df_player "X" [exampleRow]).length ∧
    (calculate_player_stats "X" [exampleRow]).attacking_sample_size +
      (calculate_player_stats "X" [exampleRow]).defending_sample_size ≤
      (df_player "X" [exampleRow]).length ∧
    (calculate_player_stats "X" [exampleRow]).defending_d1_sample_size ≤
      (calculate_player_stats "X" [exampleRow]).defending_sample_size :=
  C6_sample_size_bounds "X" [exampleRow] (by decide)

/-! ## Theorems — Leaderboard Builder claims (C7, C8) -/

theorem length_sort_values (key : PlayerStats → Rat) (asc : Bool)
    (l : List (String × PlayerStats)) :
    (sort_values key asc l).length = l.length := by
  unfold sort_values
  split <;> simp

theorem mem_sort_values {x : String × PlayerStats} {key : PlayerStats → Rat}
    {asc : Bool} {l : List (String × PlayerStats)} :
    x ∈ sort_values key asc l ↔ x ∈ l := by
  unfold sort_values
  split <;> simp

theorem lbTable_eq_some {vget : PlayerStats → Rat} {sget : PlayerStats → Nat}
    {asc : Bool} {stats : List (String × PlayerStats)} {tbl : List LBRow}
    (h : lbTable vget sget asc stats = some tbl) :
    tbl ≠ [] ∧ (∀ row ∈ tbl, MIN_SAMPLE_SIZE ≤ row.sample_size) ∧
    tbl.map LBRow.rank = List.range' 1 tbl.length := by
  unfold lbTable at h
  split at h
  · exact absurd h (by simp)
  · rename_i hemp
    injection h with h2
    subst h2
    refine ⟨?_, ?_, ?_⟩
    · intro hnil
      have hlen := congrArg List.length hnil
      simp only [List.length_map, List.enum_length, length_sort_values,
        List.length_nil] at hlen
      rw [List.isEmpty_iff, ← List.length_eq_zero] at hemp
      exact hemp hlen
    · intro row hrow
      rw [List.mem_map] at hrow
      obtain ⟨⟨i, x⟩, hmem, hrw⟩ := hrow
      rw [List.enum_eq_zip_range] at hmem
      have hx : x ∈ sort_values vget asc
          (stats.filter (fun y => MIN_SAMPLE_SIZE ≤ sget y.2)) :=
        (List.of_mem_zip hmem).2
      rw [mem_sort_values, List.mem_filter] at hx
      have := hx.2
      rw [← hrw]
      simpa using this
    · rw [List.map_map]
      rw [show (LBRow.rank ∘ fun ix : Nat × (String × PlayerStats) =>
          (⟨ix.1 + 1, ix.2.1, round3 (vget ix.2.2), sget ix.2.2⟩ : LBRow)) =
          (fun ix : Nat × (String × PlayerStats) => ix.1 + 1) from rfl]
      rw [show (fun ix : Nat × (String × PlayerStats) => ix.1 + 1) =
          ((fun i => i + 1) ∘ Prod.fst) from rfl]
      rw [← List.map_map, List.enum_map_fst, List.range'_eq_map_range]
      simp only [List.length_map, List.enum_length]
      exact List.map_congr_left (fun a _ => Nat.add_comm a 1)

/-- C7: every table in the result of `leaderboard_tables` is nonempty, all
its entries have sample size ≥ `MIN_SAMPLE_SIZE` (= 5) for the table's
metric, its `Rank` column is exactly the dense sequence `1, 2, …, n`; and a
metric whose sample-size filter leaves no player is absent from the result
mapping. -/
theorem C7_leaderboard_filter_ranks (stats : List (String × PlayerStats)) :
    (∀ (m : String) (tbl : List LBRow), (m, tbl) ∈ leaderboard_tables stats →
      tbl ≠ [] ∧ (∀ row ∈ tbl, MIN_SAMPLE_SIZE ≤ row.sample_size) ∧
      tbl.map LBRow.rank = List.range' 1 tbl.length) ∧
    (∀ cfg ∈ lbConfigs,
      stats.filter (fun x => MIN_SAMPLE_SIZE ≤ cfg.2.2.1 x.2) = [] →
      ∀ tbl : List LBRow, (cfg.1, tbl) ∉ leaderboard_tables stats) := by
  have hnames : (lbConfigs.map Prod.fst).Nodup := by
    rw [show lbConfigs.map Prod.fst =
      ["avg. collected when attacking",
       "avg. opponents collected when defending",
       "avg. opponents collected defending (teammate)",
       "avg. opponents collected defending (dealer)",
       "avg. level change"] from rfl]
    decide
  constructor
  · intro m tbl hmem
    unfold leaderboard_tables at hmem
    rw [List.mem_filterMap] at hmem
    obtain ⟨c, _, hsome⟩ := hmem
    cases hopt : lbTable c.2.1 c.2.2.1 c.2.2.2 stats with
    | none => rw [hopt] at hsome; exact absurd hsome (by simp)
    | some t0 =>
      rw [hopt] at hsome
      simp only [Option.map_some'] at hsome
      injection hsome with hpair
      have ht0 : t0 = tbl := congrArg Prod.snd hpair
      subst ht0
      exact lbTable_eq_some hopt
  · intro cfg hcfg hempt tbl hmem
    unfold leaderboard_tables at hmem
    rw [List.mem_filterMap] at hmem
    obtain ⟨c, hc, hsome⟩ := hmem
    cases hopt : lbTable c.2.1 c.2.2.1 c.2.2.2 stats with
    | none => rw [hopt] at hsome; exact absurd hsome (by simp)
    | some t0 =>
      rw [hopt] at hsome
      simp only [Option.map_some'] at hsome
      injection hsome with hpair
      have hname : c.1 = cfg.1 := (Prod.ext_iff.mp hpair).1
      have hceq : c = cfg := List.inj_on_of_nodup_map hnames hc hcfg hname
      subst hceq
      unfold lbTable at hopt
      rw [hempt] at hopt
      simp at hopt

/-- Witness for C7 at a concrete input: for the empty stats mapping no
player qualifies for the attacking metric, so that metric is absent from
the result. -/
theorem C7_witness :
    ("avg. collected when attacking", ([] : List LBRow)) ∉
      leaderboard_tables [] :=
  (C7_leaderboard_filter_ranks []).2
    ("avg. collected when attacking", PlayerStats.avg_attacking,
      PlayerStats.attacking_sample_size, false)
    (List.mem_cons_self _ _) rfl []

/-! ## Theorems — Teammate/Opponent Aggregator claim (C9)

Specification-side characterisation of the per-pair loop (spec §4.5 steps
3–4): the rows shared by the focal player and the other player, their
same-side/opposing-side classification, and the two groups as
filters of the shared rows.  `pairGames` (the source loop) is proved equal
to this characterisation.
-/

/-- Rows of `player_games` in which both `p` and `q` occupy a slot. -/
def sharedGames (p q : String) (games : List Row) : List Row :=
  games.filter (fun r => (findSlot r p).isSome && (findSlot r q).isSome)

/-- Spec §4.5 step 3: both players occupy attacking slots or both occupy
defending slots. -/
def sameSideRow (p q : String) (r : Row) : Bool :=
  match findSlot r p, findSlot r q with
  | some i, some j => decide (i < 5) == decide (j < 5)
  | _, _ => false

/-- The teammate group of the pair `(p, q)`: focal signed level changes of
the same-side shared rows, in row order. -/
def teammateList (p q : String) (games : List Row) : List Int :=
  ((sharedGames p q games).filter (sameSideRow p q)).map
    (fun r => calculate_game_level_change r p)

/-- The opponent group of the pair `(p, q)`: focal signed level changes of
the opposing-side shared rows, in row order. -/
def opponentList (p q : String) (games : List Row) : List Int :=
  ((sharedGames p q games).filter (fun r => !(sameSideRow p q r))).map
    (fun r => calculate_game_level_change r p)

theorem foldl_pairStep (p q : String) (games : List Row) :
    ∀ a b : List Int, games.foldl (pairStep p q) (a, b) =
      (a ++ teammateList p q games, b ++ opponentList p q games) := by
  induction games with
  | nil => intro a b; simp [teammateList, opponentList, sharedGames]
  | cons g rest ih =>
    intro a b
    rw [List.foldl_cons]
    cases hp : findSlot g p with
    | none =>
      have hstep : pairStep p q (a, b) g = (a, b) := by
        unfold pairStep
        rw [hp]
      have hshared : sharedGames p q (g :: rest) = sharedGames p q rest := by
        unfold sharedGames
        rw [List.filter_cons, if_neg (by simp [hp])]
      rw [hstep, ih a b]
      unfold teammateList opponentList
      rw [hshared]
    | some i =>
      cases hq : findSlot g q with
      | none =>
        have hstep : pairStep p q (a, b) g = (a, b) := by
          unfold pairStep
          rw [hp, hq]
        have hshared : sharedGames p q (g :: rest) = sharedGames p q rest := by
          unfold sharedGames
          rw [List.filter_cons, if_neg (by simp [hq])]
        rw [hstep, ih a b]
        unfold teammateList opponentList
        rw [hshared]
      | some j =>
        have hshared : sharedGames p q (g :: rest) =
            g :: sharedGames p q rest := by
          unfold sharedGames
          rw [List.filter_cons, if_pos (by simp [hp, hq])]
        by_cases hside : decide (i < 5) = decide (j < 5)
        · have hstep : pairStep p q (a, b) g =
              (a ++ [calculate_game_level_change g p], b) := by
            unfold pairStep
            rw [hp, hq]
            show (if decide (i < 5) = decide (j < 5) then
                (a ++ [calculate_game_level_change g p], b)
              else (a, b ++ [calculate_game_level_change g p])) =
              (a ++ [calculate_game_level_change g p], b)
            rw [if_pos hside]
          have hsame : sameSideRow p q g = true := by
            unfold sameSideRow
            rw [hp, hq]
            exact beq_iff_eq.mpr hside
          rw [hstep, ih _ b]
          unfold teammateList opponentList
          rw [hshared, List.filter_cons_of_pos hsame,
            List.filter_cons_of_neg (by simp [hsame]), List.map_cons]
          simp
        · have hstep : pairStep p q (a, b) g =
              (a, b ++ [calculate_game_level_change g p]) := by
            unfold pairStep
            rw [hp, hq]
            show (if decide (i < 5) = decide (j < 5) then
                (a ++ [calculate_game_level_change g p], b)
              else (a, b ++ [calculate_game_level_change g p])) =
              (a, b ++ [calculate_game_level_change g p])
            rw [if_neg hside]
          have hsame : sameSideRow p q g = false := by
            unfold sameSideRow
            rw [hp, hq]
            simpa using hside
          rw [hstep, ih a _]
          unfold teammateList opponentList
          rw [hshared, List.filter_cons_of_neg (by simp [hsame]),
            List.filter_cons_of_pos (by simp [hsame]), List.map_cons]
          simp

/-- The source loop computes exactly the spec-side groups. -/
theorem pairGames_eq (p q : String) (games : List Row) :
    pairGames p q games = (teammateList p q games, opponentList p q games) := by
  unfold pairGames
  rw [foldl_pairStep]
  simp

theorem length_filter_not_add (l : List Row) (s : Row → Bool) :
    (l.filter s).length + (l.filter (fun r => !(s r))).length = l.length := by
  induction l with
  | nil => rfl
  | cons x rest ih =>
    by_cases hx : s x = true <;>
      simp only [List.filter_cons, hx, Bool.not_true, Bool.not_false,
        Bool.false_eq_true, if_true, if_false, List.length_cons] <;>
      omega

/-- The emission guard of one group (spec §4.5 step 5), as an `Option`:
`some (mean, count)` iff the group's count is ≥ `min_games`. -/
def teammateEntry (p q : String) (games : List Row) (m : Int) : Option PairStats :=
  if m ≤ ((pairGames p q games).1.length : Int) then
    some ⟨(((pairGames p q games).1.sum : Int) : Rat) /
        ((pairGames p q games).1.length : Rat), (pairGames p q games).1.length⟩
  else none

/-- The opponent-group emission guard, independent of the teammate one. -/
def opponentEntry (p q : String) (games : List Row) (m : Int) : Option PairStats :=
  if m ≤ ((pairGames p q games).2.length : Int) then
    some ⟨(((pairGames p q games).2.sum : Int) : Rat) /
        ((pairGames p q games).2.length : Rat), (pairGames p q games).2.length⟩
  else none

theorem emit_entry_ok (g : List Int) (m : Int) (hm : 1 ≤ m) :
    emit_entry g m = Except.ok (if m ≤ (g.length : Int) then
      some ⟨((g.sum : Int) : Rat) / (g.length : Rat), g.length⟩ else none) := by
  unfold emit_entry
  by_cases h : m ≤ (g.length : Int)
  · rw [if_pos h, if_pos h, if_neg (by omega)]
  · rw [if_neg h, if_neg h]

theorem pairEntries_ok (p : String) (player_games : List Row) (m : Int)
    (q : String) (hm : 1 ≤ m) :
    pairEntries p player_games m q =
      Except.ok (q, teammateEntry p q player_games m,
        opponentEntry p q player_games m) := by
  have h1 := emit_entry_ok (pairGames p q player_games).1 m hm
  have h2 := emit_entry_ok (pairGames p q player_games).2 m hm
  unfold pairEntries teammateEntry opponentEntry
  simp only [h1, h2]
  rfl

theorem mapM_except_ok {α β : Type} (f : α → Except String β) (g : α → β)
    (l : List α) (h : ∀ x ∈ l, f x = Except.ok (g x)) :
    l.mapM f = Except.ok (l.map g) := by
  induction l with
  | nil => rfl
  | cons x rest ih =>
    rw [List.mapM_cons, h x (List.mem_cons_self x rest),
      ih (fun y hy => h y (List.mem_cons_of_mem x hy))]
    rfl

theorem findSlot_eq_some {r : Row} {q : String} {i : Nat}
    (h : findSlot r q = some i) :
    (allCells r)[i]? = some (some q) ∧ i < 9 := by
  unfold findSlot at h
  rw [Option.map_eq_some'] at h
  obtain ⟨⟨i0, c⟩, hlast, hfst⟩ := h
  have hmem := List.mem_of_getLast?_eq_some hlast
  rw [List.mem_filter] at hmem
  obtain ⟨henum, hcell⟩ := hmem
  have hc : c = some q := by simpa using hcell
  subst hc
  have hi : i0 = i := hfst
  rw [hi] at henum
  rw [List.mk_mem_enum_iff_getElem?] at henum
  refine ⟨henum, ?_⟩
  obtain ⟨hlt, -⟩ := List.getElem?_eq_some_iff.mp henum
  simpa [allCells, attackingCells, defendingCells] using hlt

theorem mem_all_players_except {p q : String} {games : List Row} {r : Row}
    {i : Nat} (hqp : q ≠ p) (hr : r ∈ games) (h : findSlot r q = some i) :
    q ∈ all_players_except p games := by
  obtain ⟨hget, hlt⟩ := findSlot_eq_some h
  unfold all_players_except
  rw [List.mem_filter]
  constructor
  · rw [List.mem_dedup, List.mem_flatMap]
    refine ⟨i, List.mem_range.mpr hlt, ?_⟩
    rw [List.mem_filterMap]
    refine ⟨r, hr, ?_⟩
    rw [List.get?_eq_getElem?, hget]
    rfl
  · simpa using hqp

theorem mem_of_group_ne_nil {p q : String} {PG : List Row} {s : Row → Bool}
    (h : ((sharedGames p q PG).filter s).map
      (fun r => calculate_game_level_change r p) ≠ []) :
    ∃ r, r ∈ PG ∧ ∃ i, findSlot r q = some i := by
  obtain ⟨x, hx⟩ := List.exists_mem_of_ne_nil _ h
  rw [List.mem_map] at hx
  obtain ⟨r, hr, -⟩ := hx
  have hr2 : r ∈ sharedGames p q PG := List.mem_of_mem_filter hr
  unfold sharedGames at hr2
  rw [List.mem_filter] at hr2
  have hq : (findSlot r q).isSome := by
    have := hr2.2
    simp only [Bool.and_eq_true] at this
    exact this.2
  rw [Option.isSome_iff_exists] at hq
  obtain ⟨i, hi⟩ := hq
  exact ⟨r, hr2.1, i, hi⟩

/-- Unfolding of the aggregator body (definitional): early return on an
empty participation set, else the per-player loop followed by the two
dict constructions. -/
theorem teammate_opponent_eq (p : String) (df : List Row) (m : Int) :
    calculate_teammate_opponent_stats p df m =
      (if (df_player p df).isEmpty then Except.ok ([], [])
      else
        ((all_players_except p (df_player p df)).mapM
            (pairEntries p (df_player p df) m)).bind
          (fun entries => Except.ok
            (entries.filterMap (fun x => x.2.1.map (fun e => (x.1, e))),
             entries.filterMap (fun x => x.2.2.map (fun e => (x.1, e)))))) := rfl

/-- C9 (amended with `min_games ≥ 1`): the aggregator returns without
exception; for every other player the loop's two accumulated groups are
exactly the same-side and opposing-side shared rows' focal signed level
changes (so each shared row lands in exactly one group, and the group
sizes sum to the number of shared rows); and a teammate (resp. opponent)
entry for another player is present iff that group's count is
≥ `min_games`, independently, carrying that group's mean and count. -/
theorem C9_pair_classification (p : String) (df : List Row) (min_games : Int)
    (hmin : 1 ≤ min_games) :
    ∃ tm om,
      calculate_teammate_opponent_stats p df min_games = Except.ok (tm, om) ∧
      (∀ q : String,
        pairGames p q (df_player p df) =
          (teammateList p q (df_player p df),
           opponentList p q (df_player p df)) ∧
        (teammateList p q (df_player p df)).length +
          (opponentList p q (df_player p df)).length =
          (sharedGames p q (df_player p df)).length) ∧
      (∀ q : String, q ≠ p →
        ((∃ e, (q, e) ∈ tm) ↔
          min_games ≤ ((teammateList p q (df_player p df)).length : Int)) ∧
        ((∃ e, (q, e) ∈ om) ↔
          min_games ≤ ((opponentList p q (df_player p df)).length : Int)) ∧
        (∀ e : PairStats, (q, e) ∈ tm →
          e = ⟨(((teammateList p q (df_player p df)).sum : Int) : Rat) /
              ((teammateList p q (df_player p df)).length : Rat),
              (teammateList p q (df_player p df)).length⟩) ∧
        (∀ e : PairStats, (q, e) ∈ om →
          e = ⟨(((opponentList p q (df_player p df)).sum : Int) : Rat) /
              ((opponentList p q (df_player p df)).length : Rat),
              (opponentList p q (df_player p df)).length⟩)) := by
  have hconj2 : ∀ q : String,
      pairGames p q (df_player p df) =
        (teammateList p q (df_player p df),
         opponentList p q (df_player p df)) ∧
      (teammateList p q (df_player p df)).length +
        (opponentList p q (df_player p df)).length =
        (sharedGames p q (df_player p df)).length := by
    intro q
    refine ⟨pairGames_eq p q _, ?_⟩
    unfold teammateList opponentList
    rw [List.length_map, List.length_map]
    exact length_filter_not_add _ _
  by_cases hemp : (df_player p df).isEmpty
  · refine ⟨[], [], ?_, hconj2, ?_⟩
    · rw [teammate_opponent_eq, if_pos hemp]
    · intro q _
      have h0 : df_player p df = [] := List.isEmpty_iff.mp hemp
      have htl : teammateList p q (df_player p df) = [] := by rw [h0]; rfl
      have hol : opponentList p q (df_player p df) = [] := by rw [h0]; rfl
      refine ⟨?_, ?_, ?_, ?_⟩
      · rw [htl]
        constructor
        · rintro ⟨e, he⟩
          exact absurd he (List.not_mem_nil _)
        · intro hle
          exact absurd hle (by simp; omega)
      · rw [hol]
        constructor
        · rintro ⟨e, he⟩
          exact absurd he (List.not_mem_nil _)
        · intro hle
          exact absurd hle (by simp; omega)
      · intro e he
        exact absurd he (List.not_mem_nil _)
      · intro e he
        exact absurd he (List.not_mem_nil _)
  · have hmapM := mapM_except_ok
      (pairEntries p (df_player p df) min_games)
      (fun q => (q, teammateEntry p q (df_player p df) min_games,
        opponentEntry p q (df_player p df) min_games))
      (all_players_except p (df_player p df))
      (fun q _ => pairEntries_ok p (df_player p df) min_games q hmin)
    refine ⟨(all_players_except p (df_player p df)).filterMap
        (fun q => (teammateEntry p q (df_player p df) min_games).map
          (fun e => (q, e))),
      (all_players_except p (df_player p df)).filterMap
        (fun q => (opponentEntry p q (df_player p df) min_games).map
          (fun e => (q, e))),
      ?_, hconj2, ?_⟩
    · rw [teammate_opponent_eq, if_neg hemp, hmapM]
      show Except.ok _ = Except.ok _
      rw [List.filterMap_map, List.filterMap_map]
      rfl
    · have htm_mem : ∀ (q : String) (e : PairStats),
          (q, e) ∈ (all_players_except p (df_player p df)).filterMap
            (fun q2 => (teammateEntry p q2 (df_player p df) min_games).map
              (fun e2 => (q2, e2))) ↔
          q ∈ all_players_except p (df_player p df) ∧
            teammateEntry p q (df_player p df) min_games = some e := by
        intro q e
        rw [List.mem_filterMap]
        constructor
        · rintro ⟨q2, hq2, hsome⟩
          rw [Option.map_eq_some'] at hsome
          obtain ⟨e2, he2, heq⟩ := hsome
          have hqq : q2 = q := (Prod.ext_iff.mp heq).1
          have hee : e2 = e := (Prod.ext_iff.mp heq).2
          subst hqq
          subst hee
          exact ⟨hq2, he2⟩
        · rintro ⟨hq, hsome⟩
          refine ⟨q, hq, ?_⟩
          rw [hsome]
          rfl
      have hom_mem : ∀ (q : String) (e : PairStats),
          (q, e) ∈ (all_players_except p (df_player p df)).filterMap
            (fun q2 => (opponentEntry p q2 (df_player p df) min_games).map
              (fun e2 => (q2, e2))) ↔
          q ∈ all_players_except p (df_player p df) ∧
            opponentEntry p q (df_player p df) min_games = some e := by
        intro q e
        rw [List.mem_filterMap]
        constructor
        · rintro ⟨q2, hq2, hsome⟩
          rw [Option.map_eq_some'] at hsome
          obtain ⟨e2, he2, heq⟩ := hsome
          have hqq : q2 = q := (Prod.ext_iff.mp heq).1
          have hee : e2 = e := (Prod.ext_iff.mp heq).2
          subst hqq
          subst hee
          exact ⟨hq2, he2⟩
        · rintro ⟨hq, hsome⟩
          refine ⟨q, hq, ?_⟩
          rw [hsome]
          rfl
      intro q hq
      have hpair := pairGames_eq p q (df_player p df)
      refine ⟨?_, ?_, ?_, ?_⟩
      · constructor
        · rintro ⟨e, he⟩
          obtain ⟨-, hentry⟩ := (htm_mem q e).mp he
          unfold teammateEntry at hentry
          by_cases hc : min_games ≤
              ((pairGames p q (df_player p df)).1.length : Int)
          · rw [hpair] at hc
            exact hc
          · rw [if_neg hc] at hentry
            exact absurd hentry (by simp)
        · intro hlen
          have hlen2 : min_games ≤
              ((pairGames p q (df_player p df)).1.length : Int) := by
            rw [hpair]
            exact hlen
          have hne : teammateList p q (df_player p df) ≠ [] := by
            intro hnil
            rw [hnil] at hlen
            simp at hlen
            omega
          obtain ⟨r, hr, i, hi⟩ := mem_of_group_ne_nil
            (s := sameSideRow p q) (by unfold teammateList at hne; exact hne)
          have hqo := mem_all_players_except hq hr hi
          cases hval : teammateEntry p q (df_player p df) min_games with
          | none =>
            unfold teammateEntry at hval
            rw [if_pos hlen2] at hval
            exact absurd hval (by simp)
          | some e0 =>
            exact ⟨e0, (htm_mem q e0).mpr ⟨hqo, hval⟩⟩
      · constructor
        · rintro ⟨e, he⟩
          obtain ⟨-, hentry⟩ := (hom_mem q e).mp he
          unfold opponentEntry at hentry
          by_cases hc : min_games ≤
              ((pairGames p q (df_player p df)).2.length : Int)
          · rw [hpair] at hc
            exact hc
          · rw [if_neg hc] at hentry
            exact absurd hentry (by simp)
        · intro hlen
          have hlen2 : min_games ≤
              ((pairGames p q (df_player p df)).2.length : Int) := by
            rw [hpair]
            exact hlen
          have hne : opponentList p q (df_player p df) ≠ [] := by
            intro hnil
            rw [hnil] at hlen
            simp at hlen
            omega
          obtain ⟨r, hr, i, hi⟩ := mem_of_group_ne_nil
            (s := fun r => !(sameSideRow p q r))
            (by unfold opponentList at hne; exact hne)
          have hqo := mem_all_players_except hq hr hi
          cases hval : opponentEntry p q (df_player p df) min_games with
          | none =>
            unfold opponentEntry at hval
            rw [if_pos hlen2] at hval
            exact absurd hval (by simp)
          | some e0 =>
            exact ⟨e0, (hom_mem q e0).mpr ⟨hqo, hval⟩⟩
      · intro e he
        obtain ⟨-, hentry⟩ := (htm_mem q e).mp he
        unfold teammateEntry at hentry
        by_cases hc : min_games ≤
            ((pairGames p q (df_player p df)).1.length : Int)
        · rw [if_pos hc] at hentry
          injection hentry with he0
          rw [← he0, hpair]
        · rw [if_neg hc] at hentry
          exact absurd hentry (by simp)
      · intro e he
        obtain ⟨-, hentry⟩ := (hom_mem q e).mp he
        unfold opponentEntry at hentry
        by_cases hc : min_games ≤
            ((pairGames p q (df_player p df)).2.length : Int)
        · rw [if_pos hc] at hentry
          injection hentry with he0
          rw [← he0, hpair]
        · rw [if_neg hc] at hentry
          exact absurd hentry (by simp)

/-- A one-row table: `P` attacks alone, `Q` is the dealer-defender. -/
def rowC9 : Row :=
  { A1 := some "P", A2 := none, A3 := none, A4 := none, A5 := none,
    D1 := some "Q", D2 := none, D3 := none, D4 := none,
    points := 0, result := some "A+1" }

/-- C9 counterexample: the claim quantifies over every `min_games`
threshold.  At `min_games = 0`, the pair `(P, Q)` has an opponent group of
count 1 ≥ 0 (and a teammate group of count 0 ≥ 0), so the claim demands
both entries be emitted; instead the code raises `ZeroDivisionError`
computing `sum([])/len([])` for the empty teammate group, and no result is
returned at all. -/
theorem C9_counterexample :
    calculate_teammate_opponent_stats "P" [rowC9] 0 =
      Except.error "ZeroDivisionError: division by zero" ∧
    (pairGames "P" "Q" (df_player "P" [rowC9])).2.length = 1 ∧
    (pairGames "P" "Q" (df_player "P" [rowC9])).1.length = 0 ∧
    ((0 : Int) ≤ 1 ∧ (0 : Int) ≤ 0) := by
  refine ⟨by rfl, by decide, by decide, by decide⟩

/-- Witness for C9 at a concrete input: with the default-style threshold
`min_games = 1` the aggregator returns normally on the spec §8 example
row. -/
theorem C9_witness :
    ∃ tm om, calculate_teammate_opponent_stats "X" [exampleRow] 1 =
      Except.ok (tm, om) := by
  obtain ⟨tm, om, hok, -, -⟩ :=
    C9_pair_classification "X" [exampleRow] 1 (by decide)
  exact ⟨tm, om, hok⟩
